import Mathlib

/-!
Shallow embedding of the rexer multiplexer core (src/map.rs, src/bus.rs,
src/lane.rs, src/mux.rs): a tag-addressed registry of per-tag lanes, a bus
dispatching pushed values into lanes with an evict-and-retry protocol, and a
mux funnelling lane replies into one shared aggregator channel.

Machine state is passed explicitly.  The concurrent registry
(`Arc<DashMap<K, V>>`) is embedded as a function `K → Option V`; the tokio
mpsc bounded channels the code builds are embedded as bounded queues with a
consumer-closed flag and a producer-alive flag, following the channel
contract the design document states for the channel primitive (bounded
buffer, send fails once the consumer is gone, receive yields end-of-stream
once producers are gone and the buffer is drained).  Panics (`unwrap`,
the channel-capacity assertion) are explicit outcomes of the embedded
operations.
-/

/- ### Registry: `Map` / `MapSlot` (src/map.rs) -/

/-- A handle (slot) tied to a registry entry: it stores a copy of the key of
the entry it was minted for (`MapSlot` in src/map.rs; the shared pointer to
the backing store is the explicitly passed map state here). -/
structure MapSlot (K : Type) where
  key : K
deriving DecidableEq

/-- The registry's backing store, `Arc<DashMap<K, V>>`, as a finite-map
function. -/
def RegMap (K V : Type) : Type := K → Option V

/-- Pointwise update of the backing store at one key. -/
def RegMap.set [DecidableEq K] (m : RegMap K V) (k : K) (v : Option V) :
    RegMap K V :=
  fun x => if x = k then v else m x

/-- Result of `Map::get_or_insert`: the updated store, the value now under
the key, and the list of arguments the constructor closure was applied to
(so "the constructor is invoked exactly once / never" is a statement about
`calls`). -/
structure GetOrInsertOut (K V : Type) where
  map : RegMap K V
  value : V
  calls : List (MapSlot K)

/-- The `Map::get_or_insert` (src/map.rs lines 64-71): `entry(key).or_insert_with`
returns the existing value when the key is occupied; when vacant it mints the
slot for `key` first, applies the constructor to it, and installs the result
under `key`. -/
def Map.get_or_insert [DecidableEq K] (m : RegMap K V) (key : K)
    (ctor : MapSlot K → V) : GetOrInsertOut K V :=
  match m key with
  | some v => ⟨m, v, []⟩
  | none =>
    let slot : MapSlot K := ⟨key⟩
    let v := ctor slot
    ⟨m.set key (some v), v, [slot]⟩

/-- The `Map::remove` (src/map.rs lines 78-80). -/
def Map.remove [DecidableEq K] (m : RegMap K V) (key : K) : RegMap K V :=
  m.set key none

/-- The `MapSlot::is_valid` (src/map.rs lines 129-131): membership of the stored
key in the backing store, not an identity check on the value. -/
def MapSlot.is_valid (sl : MapSlot K) (m : RegMap K V) : Bool :=
  (m sl.key).isSome

/-- The `impl Drop for MapSlot` (src/map.rs lines 134-139): destroying the handle
removes whatever entry currently occupies its key, unconditionally on value
identity. -/
def MapSlot.drop_slot [DecidableEq K] (sl : MapSlot K) (m : RegMap K V) :
    RegMap K V :=
  m.set sl.key none

/- ### Channel primitive (tokio mpsc bounded channel, as required of the
external collaborator) -/

/-- A bounded mpsc channel: capacity, FIFO buffer, a consumer-closed flag
(receiver dropped or `Receiver::close` called) and a producer-alive flag
(whether the sender half is still owned somewhere). -/
structure Chan (T V : Type) where
  cap : Nat
  buf : List (T × V)
  closed : Bool
  tx_alive : Bool
deriving DecidableEq

/-- Outcome of a sender-side `send(pair).await` step. -/
inductive SendNow (T V : Type) where
  /-- the pair was enqueued; carries the updated channel -/
  | sent (c : Chan T V)
  /-- The `SendError(pair)`: the consumer is gone, the pair is handed back -/
  | closed_err (pair : T × V)
  /-- the buffer is full and the consumer alive: the send suspends -/
  | full
deriving DecidableEq

/-- The `Sender::send(pair).await`: fails (returning the pair) when the consumer
is gone; enqueues when there is room; suspends when the buffer is full. -/
def Chan.send_now (c : Chan T V) (p : T × V) : SendNow T V :=
  if c.closed then .closed_err p
  else if c.buf.length < c.cap then .sent { c with buf := c.buf ++ [p] }
  else .full

/-- Outcome of a receiver-side `recv().await` step. -/
inductive RecvNow (T V : Type) where
  /-- a buffered pair was dequeued; carries the updated channel -/
  | got (c : Chan T V) (p : T × V)
  /-- end of stream (`None`): drained and closed, or drained and no producer -/
  | finished
  /-- nothing buffered yet and the stream is still live: the receive suspends -/
  | empty
deriving DecidableEq

/-- The `Receiver::recv().await`: buffered values are drained first (also after a
close); on an empty buffer it ends the stream when the channel is closed or
every producer is gone, and suspends otherwise. -/
def Chan.recv_now (c : Chan T V) : RecvNow T V :=
  match c.buf with
  | p :: rest => .got { c with buf := rest } p
  | [] => if c.closed || !c.tx_alive then .finished else .empty

/- ### Lane halves over the bus state (src/lane.rs) and the bus state itself -/

/-- The `LaneTx` (src/lane.rs lines 51-56): the tagged sender half; `inner` is a
channel in the shared channel arena, identified by index. -/
structure LaneTx (T : Type) where
  chan : Nat
  tag : T
deriving DecidableEq

/-- The `LaneRx` (src/lane.rs lines 93-96): the receiver half, owning the map
slot of its lane's registered sender. -/
structure LaneRx (T : Type) where
  chan : Nat
  tx_slot : MapSlot T
deriving DecidableEq

/-- The `Bus` state (src/bus.rs lines 11-15) together with the arena of live
channels: `reg` is `inner: Map<T, LaneTx<T, V>>`, `lane_buf` the per-lane
buffer size; `chans`/`next_chan` make the tokio channels shared by lane
halves explicit. -/
structure BusState (T V : Type) where
  chans : Nat → Option (Chan T V)
  next_chan : Nat
  reg : RegMap T (LaneTx T)
  lane_buf : Nat

/-- Replace the channel stored at index `i`. -/
def BusState.set_chan (s : BusState T V) (i : Nat) (c : Chan T V) :
    BusState T V :=
  { s with chans := fun j => if j = i then some c else s.chans j }

/-- Dropping a `LaneTx` value (it owns the unique sender half of its lane's
channel, so the channel loses its producer). -/
def BusState.drop_tx (s : BusState T V) (tx : LaneTx T) : BusState T V :=
  match s.chans tx.chan with
  | some c => s.set_chan tx.chan { c with tx_alive := false }
  | none => s

/-- Removing the registry entry under `tag` (`Map::remove` at the bus's map:
the stored `LaneTx` value is dropped with the entry). -/
def BusState.remove_entry [DecidableEq T] (s : BusState T V) (tag : T) :
    BusState T V :=
  match s.reg tag with
  | some tx => { s.drop_tx tx with reg := Map.remove s.reg tag }
  | none => s

/-- Marking a channel consumer-closed (`Receiver::close`, or the receiver
half being dropped). -/
def BusState.close_chan (s : BusState T V) (i : Nat) : BusState T V :=
  match s.chans i with
  | some c => s.set_chan i { c with closed := true }
  | none => s

/-- The `LaneRx::tag` (src/lane.rs lines 156-158): the slot's key. -/
def LaneRx.tag (rx : LaneRx T) : T :=
  rx.tx_slot.key

/-- The `LaneRx::is_closed` (src/lane.rs lines 139-141): `!tx_slot.is_valid()`,
i.e. registry membership of the slot's key, not the raw channel flag. -/
def LaneRx.is_closed (rx : LaneRx T) (s : BusState T V) : Bool :=
  !(rx.tx_slot.is_valid s.reg)

/-- Modelled from the spec: `MapSlot::manual_drop` is called by
`LaneRx::close` and `LaneRx::map_value` (src/lane.rs lines 150 and 168) but
its definition is absent from src/map.rs.  Per the design document, close
"evicts its backing registry entry by releasing/forcing release of its
handle": it performs the handle's drop action now — remove whatever entry
currently occupies the stored key (the entry's value, a `LaneTx`, is dropped
with it). -/
def MapSlot.manual_drop [DecidableEq T] (sl : MapSlot T) (s : BusState T V) :
    BusState T V :=
  s.remove_entry sl.key

/-- The `LaneTx::send` (src/lane.rs lines 74-76): send `(tag, value)` on the
underlying channel.  Result of the completed step, with the state. -/
inductive LaneSendRes (T V : Type) where
  | ok
  | err (pair : T × V)
  | suspended
deriving DecidableEq

/-- The `LaneTx::send` acting on the shared state. -/
def LaneTx.send [DecidableEq T] (tx : LaneTx T) (s : BusState T V) (value : V) :
    BusState T V × LaneSendRes T V :=
  match s.chans tx.chan with
  | none => (s, .suspended)
  | some c =>
    match c.send_now (tx.tag, value) with
    | .sent c' => (s.set_chan tx.chan c', .ok)
    | .closed_err p => (s, .err p)
    | .full => (s, .suspended)

/-- The `LaneTx::is_closed` (src/lane.rs lines 80-82): the raw channel's closed
flag. -/
def LaneTx.tx_is_closed (tx : LaneTx T) (s : BusState T V) : Bool :=
  match s.chans tx.chan with
  | some c => c.closed
  | none => true

/-- Result of a completed `LaneRx::recv().await` step. -/
inductive LaneRecvRes (V : Type) where
  | got (v : V)
  | finished
  | suspended
deriving DecidableEq

/-- The `LaneRx::recv` (src/lane.rs lines 114-122): when `is_closed()` (the slot
is no longer valid) return `None` immediately, without touching the buffer;
otherwise receive from the raw channel and `map_value` the outcome (a pair
yields its value; end-of-stream releases the slot and yields `None`). -/
def LaneRx.recv [DecidableEq T] (rx : LaneRx T) (s : BusState T V) :
    BusState T V × LaneRecvRes V :=
  if rx.is_closed s then (s, .finished)
  else
    match s.chans rx.chan with
    | none => (s, .suspended)
    | some c =>
      match c.recv_now with
      | .got c' p => (s.set_chan rx.chan c', .got p.2)
      | .finished => (rx.tx_slot.manual_drop s, .finished)
      | .empty => (s, .suspended)

/-- The `LaneRx::poll_recv` (src/lane.rs lines 126-135): same guard, polling
form; `none` is `Poll::Pending`, `some r` is `Poll::Ready(r)`. -/
def LaneRx.poll_recv [DecidableEq T] (rx : LaneRx T) (s : BusState T V) :
    BusState T V × Option (Option V) :=
  if rx.is_closed s then (s, some none)
  else
    match s.chans rx.chan with
    | none => (s, none)
    | some c =>
      match c.recv_now with
      | .got c' p => (s.set_chan rx.chan c', some (some p.2))
      | .finished => (rx.tx_slot.manual_drop s, some none)
      | .empty => (s, none)

/-- The `LaneRx::close` (src/lane.rs lines 147-152): when not already closed,
close the raw channel and release the slot (evicting the registry entry). -/
def LaneRx.close [DecidableEq T] (rx : LaneRx T) (s : BusState T V) :
    BusState T V :=
  if rx.is_closed s then s
  else (rx.tx_slot.manual_drop (s.close_chan rx.chan))

/-- Dropping a `LaneRx` (field drops): the raw receiver is dropped, closing
the channel, and the owned slot's destructor removes the entry currently
under its key. -/
def LaneRx.drop_rx [DecidableEq T] (rx : LaneRx T) (s : BusState T V) :
    BusState T V :=
  (s.close_chan rx.chan).remove_entry rx.tx_slot.key

/- ### Bus dispatch (src/bus.rs) -/

/-- Result of one `Bus::push_item` attempt (src/bus.rs lines 55-85). -/
inductive PushItemRes (T V : Type) where
  /-- The `Ok(Some(rx))`: this call created the lane; the new receiver is returned -/
  | created (rx : LaneRx T)
  /-- The `Ok(None)`: delivered into the already-existing lane -/
  | delivered
  /-- The `Err(SendError((tag, value)))`: the existing lane's consumer is gone;
  the undelivered pair is handed back for the retry -/
  | stale (tag : T) (value : V)
  /-- the existing lane's buffer is full: the send suspends -/
  | suspended
  /-- a panic: `mpsc::channel(0)`'s capacity assertion, or the `unwrap` on
  the first send into a fresh lane failing -/
  | panicked
deriving DecidableEq

/-- The `Bus::push_item` (src/bus.rs lines 55-85): `get_or_insert` the lane for
`tag` — when vacant, the constructor builds an `mpsc::channel(lane_buf)`
pair, captures the new `LaneRx` (which owns the freshly minted slot) and
registers `LaneTx::new(tx, tag)`.  If this call created the entry, enqueue
`value` into the fresh lane (`unwrap`) and return the receiver.  Otherwise,
if the registered sender's channel is consumer-closed, remove the stale
entry and hand `(tag, value)` back; else send on the existing lane. -/
def Bus.push_item [DecidableEq T] (s : BusState T V) (tag : T) (value : V) :
    BusState T V × PushItemRes T V :=
  match s.reg tag with
  | none =>
    if s.lane_buf = 0 then (s, .panicked)
    else
      let cid := s.next_chan
      let c : Chan T V := ⟨s.lane_buf, [], false, true⟩
      let tx : LaneTx T := ⟨cid, tag⟩
      let rx : LaneRx T := ⟨cid, ⟨tag⟩⟩
      let s1 : BusState T V :=
        { s with
          chans := fun j => if j = cid then some c else s.chans j
          next_chan := cid + 1
          reg := s.reg.set tag (some tx) }
      match c.send_now (tag, value) with
      | .sent c' => (s1.set_chan cid c', .created rx)
      | _ => (s1, .panicked)
  | some tx =>
    match s.chans tx.chan with
    | none => (s, .panicked)
    | some c =>
      if c.closed then
        (s.remove_entry tag, .stale tag value)
      else
        match c.send_now (tag, value) with
        | .sent c' => (s.set_chan tx.chan c', .delivered)
        | .closed_err p => (s, .stale p.1 p.2)
        | .full => (s, .suspended)

/-- Result of the whole `Bus::push` loop. -/
inductive PushRes (T : Type) where
  | created (rx : LaneRx T)
  | delivered
  | suspended
  | panicked
  /-- the retry loop has not finished within the given fuel -/
  | spinning
deriving DecidableEq

/-- The `loop` of `Bus::push` (src/bus.rs lines 37-46) with explicit fuel:
on `Err(SendError((etag, evalue)))` the whole operation is retried with the
pair handed back; any other outcome ends the loop. -/
def Bus.push_loop [DecidableEq T] :
    Nat → BusState T V → T → V → BusState T V × PushRes T
  | 0, s, _, _ => (s, .spinning)
  | n + 1, s, tag, value =>
    match Bus.push_item s tag value with
    | (s1, .stale t v) => Bus.push_loop n s1 t v
    | (s1, .created rx) => (s1, .created rx)
    | (s1, .delivered) => (s1, .delivered)
    | (s1, .suspended) => (s1, .suspended)
    | (s1, .panicked) => (s1, .panicked)

/-- The `Bus::push` (src/bus.rs lines 37-46).  Sequentially the retry loop needs
at most two attempts (proved below), so two units of fuel compute it. -/
def Bus.push [DecidableEq T] (s : BusState T V) (tag : T) (value : V) :
    BusState T V × PushRes T :=
  Bus.push_loop 2 s tag value

/- ### Lane pairing and Mux (src/lane.rs, src/mux.rs) -/

/-- The `Lane` (src/lane.rs lines 12-15). -/
structure Lane (T : Type) where
  tx : LaneTx T
  rx : LaneRx T
deriving DecidableEq

/-- The `Lane::from_parts` (src/lane.rs lines 23-27): asserts the two tags are
equal; `none` is the assertion panic. -/
def Lane.from_parts [DecidableEq T] (tx : LaneTx T) (rx : LaneRx T) :
    Option (Lane T) :=
  if tx.tag = rx.tag then some ⟨tx, rx⟩ else none

/-- The `Mux` (src/mux.rs lines 8-11): a bus plus the sending half of the shared
aggregator channel (a channel index in the arena). -/
structure MuxState (T V : Type) where
  bus : BusState T V
  tx_chan : Nat

/-- The `Mux::new` (src/mux.rs lines 24-32): build the aggregator channel with
capacity `buf` (the mpsc assertion rejects `buf = 0`), an empty bus with
per-lane capacity `lane_buf`, and hand the aggregator's receiving half (its
channel index) back exactly once.  The aggregator channel is index `0`. -/
def Mux.new (buf lane_buf : Nat) : Option (MuxState T V × Nat) :=
  if buf = 0 then none
  else
    let agg : Chan T V := ⟨buf, [], false, true⟩
    some
      (⟨⟨fun i => if i = 0 then some agg else none, 1, fun _ => none,
          lane_buf⟩, 0⟩, 0)

/-- Result of `Mux::send`. -/
inductive MuxSendRes (T : Type) where
  | new_lane (l : Lane T)
  | sent
  | suspended
  | panicked
  | spinning
deriving DecidableEq

/-- The `Mux::send` (src/mux.rs lines 47-53): delegate to `Bus::push`; when a
new receiver comes back, pair it with `LaneTx::new(self.tx.clone(),
rx.tag().clone())` — a clone of the aggregator's sending half tagged with
the lane's tag — through `Lane::from_parts`. -/
def Mux.send [DecidableEq T] (m : MuxState T V) (tag : T) (value : V) :
    MuxState T V × MuxSendRes T :=
  match Bus.push m.bus tag value with
  | (b, .created rx) =>
    match Lane.from_parts ⟨m.tx_chan, rx.tag⟩ rx with
    | some l => ({ m with bus := b }, .new_lane l)
    | none => ({ m with bus := b }, .panicked)
  | (b, .delivered) => ({ m with bus := b }, .sent)
  | (b, .suspended) => ({ m with bus := b }, .suspended)
  | (b, .panicked) => ({ m with bus := b }, .panicked)
  | (b, .spinning) => ({ m with bus := b }, .spinning)

/- ### Interleaved per-lane traffic (for the FIFO property) -/

/-- One step of traffic on a single lane: a producer-side
`LaneTx::send(v)` or a consumer-side `LaneRx::recv()`. -/
inductive LaneOp (V : Type) where
  | send (v : V)
  | recv
deriving DecidableEq

/-- Run a list of interleaved operations on one lane, logging in order the
values whose send completed and the values the receiver obtained. -/
def runLaneOps [DecidableEq T] (tx : LaneTx T) (rx : LaneRx T) :
    BusState T V → List (LaneOp V) → BusState T V × List V × List V
  | s, [] => (s, [], [])
  | s, LaneOp.send v :: ops =>
    match tx.send s v with
    | (s1, .ok) =>
      let r := runLaneOps tx rx s1 ops
      (r.1, v :: r.2.1, r.2.2)
    | (s1, _) => runLaneOps tx rx s1 ops
  | s, LaneOp.recv :: ops =>
    match rx.recv s with
    | (s1, .got v) =>
      let r := runLaneOps tx rx s1 ops
      (r.1, r.2.1, v :: r.2.2)
    | (s1, _) => runLaneOps tx rx s1 ops

/- ### A single-lane wiring invariant and concrete states used below -/

/-- A lane pair wired to one live channel: the receiver and sender share the
channel, the receiver's slot is still registered, and the channel is neither
consumer-closed nor producer-dead. -/
def LaneWire (tx : LaneTx T) (rx : LaneRx T) (s : BusState T V) : Prop :=
  rx.chan = tx.chan ∧ (s.reg rx.tx_slot.key).isSome = true ∧
  ∃ c, s.chans tx.chan = some c ∧ c.closed = false ∧ c.tx_alive = true

/-- An empty bus with per-lane capacity 2. -/
def busEmpty : BusState Nat Nat := ⟨fun _ => none, 0, fun _ => none, 2⟩

/-- A bus whose registry still names tag `0` although lane `0`'s consumer is
gone (the stale-entry window of the retry protocol). -/
def busStale : BusState Nat Nat :=
  ⟨fun i => if i = 0 then some ⟨2, [], true, true⟩ else none, 1,
    fun t => if t = 0 then some ⟨0, 0⟩ else none, 2⟩

/-- A bus with one live open lane for tag `0` on channel `0`. -/
def busOpen : BusState Nat Nat :=
  ⟨fun i => if i = 0 then some ⟨2, [], false, true⟩ else none, 1,
    fun t => if t = 0 then some ⟨0, 0⟩ else none, 2⟩

/-- The sender half of `busOpen`'s lane. -/
def txOpen : LaneTx Nat := ⟨0, 0⟩

/-- The receiver half of `busOpen`'s lane. -/
def rxOpen : LaneRx Nat := ⟨0, ⟨0⟩⟩

/-- A bus whose channel `0` still buffers a value although its lane's
registry entry is gone (evicted before the buffer was drained). -/
def busBuffered : BusState Nat Nat :=
  ⟨fun i => if i = 0 then some ⟨2, [(0, 7)], true, false⟩ else none, 1,
    fun _ => none, 2⟩

/-- A receiver whose tag was evicted from `busBuffered`'s registry. -/
def rxGone : LaneRx Nat := ⟨0, ⟨0⟩⟩

/-- The mux of the worked scenario: `Mux::new(buf = 4, lane_buf = 2)`
(aggregator channel `0`, empty registry). -/
def muxA : MuxState String Nat :=
  ⟨⟨fun i => if i = 0 then some ⟨4, [], false, true⟩ else none, 1,
    fun _ => none, 2⟩, 0⟩

/-- The mux after `send("a", 1)`. -/
def muxB : MuxState String Nat := (Mux.send muxA "a" 1).1

/-- The mux after `send("a", 1)` then `send("a", 2)`. -/
def muxC : MuxState String Nat := (Mux.send muxB "a" 2).1

/-- The lane returned by `send("a", 1)`: its sender is the aggregator's
sending half (channel `0`) tagged `"a"`, its receiver lane channel `1`. -/
def laneA : Lane String := ⟨⟨0, "a"⟩, ⟨1, ⟨"a"⟩⟩⟩

/-- The bus after `laneA`'s receiver took the first value. -/
def busD : BusState String Nat := ((laneA.rx).recv muxC.bus).1

/-- The bus after `laneA`'s receiver took both values. -/
def busE : BusState String Nat := ((laneA.rx).recv busD).1

/-- The bus after `laneA`'s receiver was dropped. -/
def busF : BusState String Nat := (laneA.rx).drop_rx busE

/-- The mux after `laneA`'s receiver was dropped. -/
def muxF : MuxState String Nat := ⟨busF, 0⟩

/-- The brand-new lane returned by `send("a", 3)` after the drop: same
aggregator sender, a fresh lane channel `2`. -/
def laneA2 : Lane String := ⟨⟨0, "a"⟩, ⟨2, ⟨"a"⟩⟩⟩

/- ### Basic lemmas about the registry and state plumbing -/

theorem RegMap.set_self [DecidableEq K] (m : RegMap K V) (k : K)
    (v : Option V) : m.set k v k = v := by
  simp [RegMap.set]

theorem RegMap.set_ne [DecidableEq K] (m : RegMap K V) (k x : K)
    (v : Option V) (h : x ≠ k) : m.set k v x = m x := by
  simp [RegMap.set, h]

theorem BusState.set_chan_reg (s : BusState T V) (i : Nat) (c : Chan T V) :
    (s.set_chan i c).reg = s.reg := rfl

theorem BusState.drop_tx_reg (s : BusState T V) (tx : LaneTx T) :
    (s.drop_tx tx).reg = s.reg := by
  unfold BusState.drop_tx
  cases s.chans tx.chan <;> rfl

theorem BusState.close_chan_reg (s : BusState T V) (i : Nat) :
    (s.close_chan i).reg = s.reg := by
  unfold BusState.close_chan
  cases s.chans i <;> rfl

theorem BusState.remove_entry_reg [DecidableEq T] (s : BusState T V)
    (tag k : T) :
    (s.remove_entry tag).reg k = if k = tag then none else s.reg k := by
  unfold BusState.remove_entry
  cases h : s.reg tag with
  | none =>
    by_cases hk : k = tag <;> simp [hk, h]
  | some tx =>
    simp [BusState.drop_tx_reg, Map.remove, RegMap.set]

theorem BusState.remove_entry_buf [DecidableEq T] (s : BusState T V)
    (tag : T) (j : Nat) :
    ((s.remove_entry tag).chans j).map Chan.buf =
      (s.chans j).map Chan.buf := by
  unfold BusState.remove_entry
  cases h : s.reg tag with
  | none => rfl
  | some tx =>
    show ((s.drop_tx tx).chans j).map Chan.buf = _
    unfold BusState.drop_tx
    cases hc : s.chans tx.chan with
    | none => rfl
    | some c =>
      by_cases hj : j = tx.chan
      · subst hj
        simp [BusState.set_chan, hc]
      · simp [BusState.set_chan, hj]

theorem BusState.remove_entry_next [DecidableEq T] (s : BusState T V)
    (tag : T) : (s.remove_entry tag).next_chan = s.next_chan := by
  unfold BusState.remove_entry BusState.drop_tx
  cases s.reg tag with
  | none => rfl
  | some tx => cases hc : s.chans tx.chan <;> simp [BusState.set_chan, hc]

theorem BusState.remove_entry_lane_buf [DecidableEq T] (s : BusState T V)
    (tag : T) : (s.remove_entry tag).lane_buf = s.lane_buf := by
  unfold BusState.remove_entry BusState.drop_tx
  cases s.reg tag with
  | none => rfl
  | some tx => cases hc : s.chans tx.chan <;> simp [BusState.set_chan, hc]

/- ### Lemmas about a single `Bus::push_item` attempt -/

-- First use of a tag with a positive lane buffer: the constructor runs, the
-- fresh lane swallows the value, and the new receiver is handed back.
theorem push_item_absent [DecidableEq T] (s : BusState T V) (tag : T)
    (value : V) (habs : s.reg tag = none) (hbuf : s.lane_buf ≠ 0) :
    Bus.push_item s tag value =
      (⟨fun j => if j = s.next_chan
          then some ⟨s.lane_buf, [(tag, value)], false, true⟩
          else s.chans j,
        s.next_chan + 1, s.reg.set tag (some ⟨s.next_chan, tag⟩),
        s.lane_buf⟩,
       .created ⟨s.next_chan, ⟨tag⟩⟩) := by
  unfold Bus.push_item
  rw [habs]
  simp only [hbuf, ite_false, Chan.send_now, List.length_nil,
    Nat.pos_of_ne_zero hbuf, if_true, Bool.false_eq_true, List.nil_append,
    BusState.set_chan]
  refine Prod.ext ?_ rfl
  refine congrArg (fun f => BusState.mk f _ _ _) ?_
  funext j
  by_cases hj : j = s.next_chan <;> simp [hj]

-- The only way an attempt hands the pair back is the stale-entry path: the
-- registered lane is consumer-closed; the entry is removed and the very same
-- pair is carried back.
theorem push_item_stale_eq [DecidableEq T] {s s' : BusState T V}
    {tag t : T} {value v : V}
    (h : Bus.push_item s tag value = (s', .stale t v)) :
    t = tag ∧ v = value ∧ s' = s.remove_entry tag := by
  unfold Bus.push_item at h
  split at h
  · split at h
    · simp at h
    · next h0 =>
      simp [Chan.send_now, Nat.pos_of_ne_zero h0] at h
  · split at h
    · simp at h
    · split at h
      · rw [Prod.mk.injEq] at h
        obtain ⟨h3, h4⟩ := h
        injection h4 with ht hv
        exact ⟨ht.symm, hv.symm, h3.symm⟩
      · next hc =>
        split at h
        · simp at h
        · next p heq =>
          simp [Chan.send_now, hc] at heq
          split at heq <;> simp at heq
        · simp at h

-- Delivery into an existing lane: the registered sender's channel is open
-- and has room; the pair is appended to that channel and nothing else moves.
theorem push_item_delivered_eq [DecidableEq T] {s s' : BusState T V}
    {tag : T} {value : V}
    (h : Bus.push_item s tag value = (s', .delivered)) :
    ∃ tx c, s.reg tag = some tx ∧ s.chans tx.chan = some c ∧
      c.closed = false ∧ c.buf.length < c.cap ∧
      s' = s.set_chan tx.chan { c with buf := c.buf ++ [(tag, value)] } := by
  unfold Bus.push_item at h
  split at h
  · split at h
    · simp at h
    · next h0 =>
      simp [Chan.send_now, Nat.pos_of_ne_zero h0] at h
  · next tx h1 =>
    split at h
    · simp at h
    · next c h2 =>
      split at h
      · simp at h
      · next hc =>
        split at h
        · next c' heq =>
          rw [Prod.mk.injEq] at h
          simp only [Chan.send_now, hc, if_false, Bool.false_eq_true] at heq
          split at heq
          · next h3 =>
            injection heq with hc'
            have hcf : c.closed = false := by
              revert hc; cases c.closed <;> simp
            refine ⟨tx, c, h1, h2, hcf, h3, ?_⟩
            rw [← h.1, ← hc', hcf]
          · simp at heq
        · simp at h
        · simp at h

-- A created result can only come from the vacant branch with a positive
-- lane buffer.
theorem push_item_created_inv [DecidableEq T] {s s' : BusState T V}
    {tag : T} {value : V} {rx : LaneRx T}
    (h : Bus.push_item s tag value = (s', .created rx)) :
    s.reg tag = none ∧ s.lane_buf ≠ 0 := by
  unfold Bus.push_item at h
  split at h
  · next h1 =>
    split at h
    · simp at h
    · next h0 => exact ⟨h1, h0⟩
  · split at h
    · simp at h
    · split at h
      · simp at h
      · next hc =>
        split at h
        · simp at h
        · simp at h
        · simp at h

-- On a vacant tag the attempt either creates the lane or dies on the
-- channel-capacity assertion; it never hands the pair back.
theorem push_item_absent_cases [DecidableEq T] (s : BusState T V) (tag : T)
    (value : V) (habs : s.reg tag = none) :
    (Bus.push_item s tag value).2 = .created ⟨s.next_chan, ⟨tag⟩⟩ ∨
      (Bus.push_item s tag value).2 = .panicked := by
  by_cases h0 : s.lane_buf = 0
  · right
    unfold Bus.push_item
    rw [habs]
    simp [h0]
  · left
    rw [push_item_absent s tag value habs h0]

/- ### Lemmas about the `Bus::push` retry loop -/

-- After a stale attempt the tag is vacant, so the retry cannot stall: two
-- units of fuel always end the sequential loop.
theorem push_loop_no_spin [DecidableEq T] (n : Nat) (s : BusState T V)
    (tag : T) (value : V) :
    (Bus.push_loop (n + 2) s tag value).2 ≠ PushRes.spinning := by
  intro hspin
  unfold Bus.push_loop at hspin
  split at hspin
  · next s1 t v heq =>
    obtain ⟨ht, hv, hs1⟩ := push_item_stale_eq heq
    subst ht
    subst hv
    have habs : s1.reg t = none := by
      rw [hs1, BusState.remove_entry_reg]
      simp
    unfold Bus.push_loop at hspin
    split at hspin
    · next s2 t2 v2 heq2 =>
      rcases push_item_absent_cases s1 t v habs with hcase | hcase <;>
        rw [heq2] at hcase <;> simp at hcase
    · simp at hspin
    · simp at hspin
    · simp at hspin
    · simp at hspin
  · simp at hspin
  · simp at hspin
  · simp at hspin
  · simp at hspin

-- When the two-attempt push hands back a fresh receiver: the receiver is
-- keyed by the pushed tag, registered, and its lane buffers exactly the
-- pushed pair; no other channel's buffer moves.
theorem push_created_eq [DecidableEq T] {s s' : BusState T V} {tag : T}
    {value : V} {rx : LaneRx T}
    (h : Bus.push s tag value = (s', .created rx)) :
    rx.tx_slot.key = tag ∧
    s'.reg tag = some ⟨rx.chan, tag⟩ ∧
    (s'.chans rx.chan).map Chan.buf = some [(tag, value)] ∧
    ∀ j, j ≠ rx.chan →
      (s'.chans j).map Chan.buf = (s.chans j).map Chan.buf := by
  unfold Bus.push Bus.push_loop at h
  split at h
  · next s1 t v heq =>
    obtain ⟨ht, hv, hs1⟩ := push_item_stale_eq heq
    subst ht
    subst hv
    have habs : s1.reg t = none := by
      rw [hs1, BusState.remove_entry_reg]
      simp
    unfold Bus.push_loop at h
    split at h
    · next s2 t2 v2 heq2 =>
      unfold Bus.push_loop at h
      simp at h
    · next s2 rx2 heq2 =>
      rw [Prod.mk.injEq] at h
      obtain ⟨hs2, hr⟩ := h
      injection hr with hrx
      subst hs2
      subst hrx
      obtain ⟨-, hbuf2⟩ := push_item_created_inv heq2
      rw [push_item_absent s1 t v habs hbuf2, Prod.mk.injEq] at heq2
      obtain ⟨hst, hrx2⟩ := heq2
      injection hrx2 with hrx2
      subst hrx2
      refine ⟨rfl, ?_, ?_, ?_⟩
      · rw [← hst]
        show (s1.reg.set t (some ⟨s1.next_chan, t⟩)) t = _
        rw [RegMap.set_self]
      · rw [← hst]
        show ((fun j => if j = s1.next_chan
            then some ⟨s1.lane_buf, [(t, v)], false, true⟩
            else s1.chans j) s1.next_chan).map Chan.buf = _
        simp
      · intro j hj
        rw [← hst]
        show ((fun j => if j = s1.next_chan
            then some ⟨s1.lane_buf, [(t, v)], false, true⟩
            else s1.chans j) j).map Chan.buf = _
        have hj' : j ≠ s1.next_chan := hj
        simp only [hj', if_false]
        rw [hs1, BusState.remove_entry_buf]
    · simp at h
    · simp at h
    · simp at h
  · next s1 rx1 heq =>
    rw [Prod.mk.injEq] at h
    obtain ⟨hs1, hr⟩ := h
    injection hr with hrx
    subst hs1
    subst hrx
    obtain ⟨habs, hbuf⟩ := push_item_created_inv heq
    rw [push_item_absent s tag value habs hbuf, Prod.mk.injEq] at heq
    obtain ⟨hst, hrx1⟩ := heq
    injection hrx1 with hrx1
    subst hrx1
    refine ⟨rfl, ?_, ?_, ?_⟩
    · rw [← hst]
      show (s.reg.set tag (some ⟨s.next_chan, tag⟩)) tag = _
      rw [RegMap.set_self]
    · rw [← hst]
      show ((fun j => if j = s.next_chan
          then some ⟨s.lane_buf, [(tag, value)], false, true⟩
          else s.chans j) s.next_chan).map Chan.buf = _
      simp
    · intro j hj
      rw [← hst]
      have hj' : j ≠ s.next_chan := hj
      show ((fun j => if j = s.next_chan
          then some ⟨s.lane_buf, [(tag, value)], false, true⟩
          else s.chans j) j).map Chan.buf = _
      simp only [hj', if_false]
  · simp at h
  · simp at h
  · simp at h

-- When the two-attempt push delivers into an existing lane, the pair is
-- appended to the registered lane's buffer and every other channel is
-- untouched.
theorem push_delivered_eq [DecidableEq T] {s s' : BusState T V} {tag : T}
    {value : V}
    (h : Bus.push s tag value = (s', .delivered)) :
    ∃ tx c, s.reg tag = some tx ∧ s.chans tx.chan = some c ∧
      s'.chans tx.chan = some { c with buf := c.buf ++ [(tag, value)] } ∧
      ∀ j, j ≠ tx.chan → s'.chans j = s.chans j := by
  unfold Bus.push Bus.push_loop at h
  split at h
  · next s1 t v heq =>
    obtain ⟨ht, hv, hs1⟩ := push_item_stale_eq heq
    subst ht
    subst hv
    have habs : s1.reg t = none := by
      rw [hs1, BusState.remove_entry_reg]
      simp
    unfold Bus.push_loop at h
    split at h
    · next s2 t2 v2 heq2 =>
      unfold Bus.push_loop at h
      simp at h
    · simp at h
    · next s2 heq2 =>
      rcases push_item_absent_cases s1 t v habs with hcase | hcase <;>
        rw [heq2] at hcase <;> simp at hcase
    · simp at h
    · simp at h
  · simp at h
  · next s1 heq =>
    rw [Prod.mk.injEq] at h
    obtain ⟨hs1, -⟩ := h
    subst hs1
    obtain ⟨tx, c, h1, h2, h3, h4, h5⟩ := push_item_delivered_eq heq
    subst h5
    refine ⟨tx, c, h1, h2, ?_, ?_⟩
    · simp [BusState.set_chan]
    · intro j hj
      simp [BusState.set_chan, hj]
  · simp at h
  · simp at h

/- ### FIFO invariant for interleaved single-lane traffic -/

-- Balance invariant: along any interleaving of completed sends and receives
-- on one live lane, what was sent equals what was received followed by what
-- is still buffered.
theorem run_lane_ops_fifo_aux [DecidableEq T] (tx : LaneTx T) (rx : LaneRx T)
    (ops : List (LaneOp V)) :
    ∀ (s : BusState T V) (c : Chan T V),
      rx.chan = tx.chan →
      (s.reg rx.tx_slot.key).isSome = true →
      s.chans tx.chan = some c → c.closed = false → c.tx_alive = true →
      ∃ c', (runLaneOps tx rx s ops).1.chans tx.chan = some c' ∧
        c.buf.map Prod.snd ++ (runLaneOps tx rx s ops).2.1 =
          (runLaneOps tx rx s ops).2.2 ++ c'.buf.map Prod.snd := by
  induction ops with
  | nil =>
    intro s c hch hreg hc hcl hal
    exact ⟨c, hc, by simp [runLaneOps]⟩
  | cons op ops ih =>
    intro s c hch hreg hc hcl hal
    cases op with
    | send v =>
      by_cases hroom : c.buf.length < c.cap
      · have hsend : tx.send s v =
            (s.set_chan tx.chan { c with buf := c.buf ++ [(tx.tag, v)] },
              .ok) := by
          unfold LaneTx.send
          rw [hc]
          simp [Chan.send_now, hcl, hroom]
        simp only [runLaneOps, hsend]
        obtain ⟨c', hcc, hbal⟩ :=
          ih (s.set_chan tx.chan { c with buf := c.buf ++ [(tx.tag, v)] })
            { c with buf := c.buf ++ [(tx.tag, v)] } hch
            (by rw [BusState.set_chan_reg]; exact hreg)
            (by simp [BusState.set_chan]) hcl hal
        refine ⟨c', hcc, ?_⟩
        simpa [List.map_append] using hbal
      · have hsend : tx.send s v = (s, .suspended) := by
          unfold LaneTx.send
          rw [hc]
          simp [Chan.send_now, hcl, hroom]
        simp only [runLaneOps, hsend]
        exact ih s c hch hreg hc hcl hal
    | recv =>
      have hclosed : rx.is_closed s = false := by
        simp [LaneRx.is_closed, MapSlot.is_valid, hreg]
      cases hbuf : c.buf with
      | nil =>
        have hrecv : rx.recv s = (s, .suspended) := by
          unfold LaneRx.recv
          rw [hclosed]
          simp only [Bool.false_eq_true, if_false]
          rw [hch, hc]
          simp [Chan.recv_now, hbuf, hcl, hal]
        simp only [runLaneOps, hrecv]
        have hres := ih s c hch hreg hc hcl hal
        rwa [hbuf] at hres
      | cons p rest =>
        have hrecv : rx.recv s =
            (s.set_chan rx.chan { c with buf := rest }, .got p.2) := by
          unfold LaneRx.recv
          rw [hclosed]
          simp only [Bool.false_eq_true, if_false]
          rw [hch, hc]
          simp [Chan.recv_now, hbuf]
        simp only [runLaneOps, hrecv]
        obtain ⟨c', hcc, hbal⟩ :=
          ih (s.set_chan rx.chan { c with buf := rest })
            { c with buf := rest } hch
            (by rw [BusState.set_chan_reg]; exact hreg)
            (by rw [hch]; simp [BusState.set_chan]) hcl hal
        refine ⟨c', hcc, ?_⟩
        simpa using congrArg (fun l => p.2 :: l) hbal

/- ### Claim theorems -/

/-- C1: `Bus::push` never drops a pushed value.  (i) A failed internal
delivery attempt — the existing lane's consumer is gone — hands back exactly
the same `(tag, value)` pair, so the whole operation is retried from step 1
with the identical pair.  (ii) The sequential retry loop terminates: two
units of fuel always suffice, so the call ends only by delivering or
creating.  (iii) A terminating call returning a fresh receiver has enqueued
the pair, alone, into the newly created lane registered for `tag`, every
other channel's buffer untouched.  (iv) A terminating call returning `None`
has appended the pair, once, to the lane registered for `tag`, every other
channel untouched — the pushed value reaches exactly one lane receiver for
its tag. -/
theorem bus_push_no_message_loss :
    (∀ (T V : Type) [DecidableEq T] (s s' : BusState T V) (tag t : T)
        (value v : V),
      Bus.push_item s tag value = (s', .stale t v) →
        t = tag ∧ v = value) ∧
    (∀ (T V : Type) [DecidableEq T] (n : Nat) (s : BusState T V)
        (tag : T) (value : V),
      (Bus.push_loop (n + 2) s tag value).2 ≠ PushRes.spinning) ∧
    (∀ (T V : Type) [DecidableEq T] (s s' : BusState T V) (tag : T)
        (value : V) (rx : LaneRx T),
      Bus.push s tag value = (s', .created rx) →
        rx.tx_slot.key = tag ∧ s'.reg tag = some ⟨rx.chan, tag⟩ ∧
        (s'.chans rx.chan).map Chan.buf = some [(tag, value)] ∧
        ∀ j, j ≠ rx.chan →
          (s'.chans j).map Chan.buf = (s.chans j).map Chan.buf) ∧
    (∀ (T V : Type) [DecidableEq T] (s s' : BusState T V) (tag : T)
        (value : V),
      Bus.push s tag value = (s', .delivered) →
        ∃ tx c, s.reg tag = some tx ∧ s.chans tx.chan = some c ∧
          s'.chans tx.chan = some { c with buf := c.buf ++ [(tag, value)] } ∧
          ∀ j, j ≠ tx.chan → s'.chans j = s.chans j) := by
  refine ⟨?_, ?_, ?_, ?_⟩
  · intro T V _ s s' tag t value v h
    exact ⟨(push_item_stale_eq h).1, (push_item_stale_eq h).2.1⟩
  · intro T V _ n s tag value
    exact push_loop_no_spin n s tag value
  · intro T V _ s s' tag value rx h
    exact push_created_eq h
  · intro T V _ s s' tag value h
    exact push_delivered_eq h

/-- Witness for C1: pushing `5` to tag `0` of a bus whose registered lane
for `0` is consumer-closed ends with the value alone in the freshly created
lane (channel `1`). -/
theorem bus_push_no_message_loss_witness :
    ((Bus.push busStale 0 5).1.chans 1).map Chan.buf = some [(0, 5)] :=
  (bus_push_no_message_loss.2.2.1 Nat Nat busStale (Bus.push busStale 0 5).1
      0 5 ⟨1, ⟨0⟩⟩ (Prod.ext_iff.mpr ⟨rfl, by decide⟩)).2.2.1

/-- C2: `Map::get_or_insert(key, constructor)`: when `key` is present the
existing value is returned, the constructor is never invoked and the store
is unchanged; when `key` is absent the constructor is invoked exactly once,
on a freshly minted handle for `key` (minted before the value exists), and
its result is installed under `key`, all other keys untouched. -/
theorem map_get_or_insert_contract :
    ∀ (K V : Type) [DecidableEq K] (m : RegMap K V) (key : K)
        (ctor : MapSlot K → V),
      (∀ v, m key = some v → Map.get_or_insert m key ctor = ⟨m, v, []⟩) ∧
      (m key = none →
        (Map.get_or_insert m key ctor).calls = [⟨key⟩] ∧
        (Map.get_or_insert m key ctor).value = ctor ⟨key⟩ ∧
        (Map.get_or_insert m key ctor).map key = some (ctor ⟨key⟩) ∧
        (∀ k, k ≠ key → (Map.get_or_insert m key ctor).map k = m k)) := by
  intro K V _ m key ctor
  constructor
  · intro v hv
    unfold Map.get_or_insert
    rw [hv]
  · intro hv
    unfold Map.get_or_insert
    rw [hv]
    exact ⟨rfl, rfl, RegMap.set_self m key _,
      fun k hk => RegMap.set_ne m key k _ hk⟩

/-- Witness for C2: on an occupied key the existing value comes back with no
constructor call; on a vacant key the constructor is called once, on the
handle for that key. -/
theorem map_get_or_insert_contract_witness :
    Map.get_or_insert (fun _ => some 7 : RegMap Nat Nat) 0 (fun sl => sl.key)
        = ⟨fun _ => some 7, 7, []⟩ ∧
    (Map.get_or_insert (fun _ => none : RegMap Nat Nat) 0
        (fun sl => sl.key + 3)).calls = [⟨0⟩] :=
  ⟨(map_get_or_insert_contract Nat Nat (fun _ => some 7) 0
        (fun sl => sl.key)).1 7 rfl,
    ((map_get_or_insert_contract Nat Nat (fun _ => none) 0
        (fun sl => sl.key + 3)).2 rfl).1⟩

/-- C3: destroying a `MapSlot` handle removes whatever entry currently
occupies its key, unconditionally on value identity — in particular also
when the entry was replaced after the handle was minted — and leaves the
entries under all other keys unaffected. -/
theorem mapslot_drop_evicts_current :
    ∀ (K V : Type) [DecidableEq K] (m : RegMap K V) (sl : MapSlot K),
      (sl.drop_slot m) sl.key = none ∧
      (∀ v : V, (sl.drop_slot (m.set sl.key (some v))) sl.key = none) ∧
      (∀ k, k ≠ sl.key → (sl.drop_slot m) k = m k) := by
  intro K V _ m sl
  exact ⟨RegMap.set_self m sl.key none,
    fun v => RegMap.set_self _ sl.key none,
    fun k hk => RegMap.set_ne m sl.key k none hk⟩

/-- Witness for C3: dropping the handle for key `0` over a store where every
key holds `5` evicts key `0` and leaves key `1` intact. -/
theorem mapslot_drop_evicts_current_witness :
    ((⟨0⟩ : MapSlot Nat).drop_slot (fun _ => some 5)) 0 = none ∧
    ((⟨0⟩ : MapSlot Nat).drop_slot (fun _ => some 5)) 1 = some 5 :=
  ⟨(mapslot_drop_evicts_current Nat Nat (fun _ => some 5) ⟨0⟩).1,
    ((mapslot_drop_evicts_current Nat Nat (fun _ => some 5) ⟨0⟩).2.2 1
        (by decide)).trans rfl⟩

/-- C4: eviction on close: after a lane receiver is dropped (or closed) the
registry no longer reports its tag, and a subsequent push creates a
brand-new lane.  Worked scenario for `Mux::new(buf = 4, lane_buf = 2)`:
`send("a", 1)` returns the new `laneA`; `send("a", 2)` returns no lane and
the value reaches `laneA`'s receiver as `2` after `1`; after dropping
`laneA`'s receiver the registry no longer contains `"a"` and `send("a", 3)`
returns the brand-new `laneA2` (a different lane channel) whose receiver
yields `3`. -/
theorem eviction_on_close_recreates :
    (∀ (T V : Type) [DecidableEq T] (s : BusState T V) (rx : LaneRx T),
      (rx.drop_rx s).reg rx.tag = none ∧ (rx.close s).reg rx.tag = none) ∧
    (Mux.send muxA "a" 1).2 = .new_lane laneA ∧
    (Mux.send muxB "a" 2).2 = .sent ∧
    ((laneA.rx).recv muxC.bus).2 = .got 1 ∧
    ((laneA.rx).recv busD).2 = .got 2 ∧
    busF.reg "a" = none ∧
    (Mux.send muxF "a" 3).2 = .new_lane laneA2 ∧
    laneA2.rx.chan ≠ laneA.rx.chan ∧
    ((laneA2.rx).recv (Mux.send muxF "a" 3).1.bus).2 = .got 3 := by
  refine ⟨?_, by decide, by decide, by decide, by decide, by decide,
    by decide, by decide, by decide⟩
  intro T V _ s rx
  constructor
  · show ((s.close_chan rx.chan).remove_entry rx.tx_slot.key).reg
        rx.tx_slot.key = none
    rw [BusState.remove_entry_reg]
    simp
  · unfold LaneRx.close
    by_cases h : rx.is_closed s = true
    · rw [if_pos h]
      unfold LaneRx.is_closed MapSlot.is_valid at h
      show s.reg rx.tx_slot.key = none
      revert h
      cases s.reg rx.tx_slot.key <;> simp
    · rw [if_neg h]
      show ((s.close_chan rx.chan).remove_entry rx.tx_slot.key).reg
          rx.tx_slot.key = none
      rw [BusState.remove_entry_reg]
      simp

/-- Witness for C4: dropping the receiver of the buffered lane evicts its
tag from the registry. -/
theorem eviction_on_close_recreates_witness :
    (rxGone.drop_rx busBuffered).reg 0 = none :=
  (eviction_on_close_recreates.1 Nat Nat busBuffered rxGone).1

/-- C5: `LaneRx::close` is idempotent — closing the receiver again right
after a close is a no-op — and no close ever evicts another tag's entry:
the registry restricted to every other key is unchanged by a close. -/
theorem lane_rx_close_idempotent :
    ∀ (T V : Type) [DecidableEq T] (s : BusState T V) (rx : LaneRx T),
      LaneRx.close rx (LaneRx.close rx s) = LaneRx.close rx s ∧
      (∀ k, k ≠ rx.tx_slot.key → (LaneRx.close rx s).reg k = s.reg k) := by
  intro T V _ s rx
  have close_noop : ∀ s0 : BusState T V, rx.is_closed s0 = true →
      LaneRx.close rx s0 = s0 := by
    intro s0 h0
    unfold LaneRx.close
    rw [if_pos h0]
  have key_closed : rx.is_closed (LaneRx.close rx s) = true := by
    unfold LaneRx.close
    by_cases h : rx.is_closed s = true
    · rw [if_pos h]
      exact h
    · rw [if_neg h]
      unfold LaneRx.is_closed MapSlot.is_valid MapSlot.manual_drop
      rw [BusState.remove_entry_reg]
      simp
  refine ⟨close_noop _ key_closed, ?_⟩
  intro k hk
  unfold LaneRx.close
  by_cases h : rx.is_closed s = true
  · rw [if_pos h]
  · rw [if_neg h]
    show (MapSlot.manual_drop rx.tx_slot (s.close_chan rx.chan)).reg k =
        s.reg k
    unfold MapSlot.manual_drop
    rw [BusState.remove_entry_reg, if_neg hk, BusState.close_chan_reg]

/-- Witness for C5: closing tag `0`'s receiver leaves tag `1`'s registry
entry untouched. -/
theorem lane_rx_close_idempotent_witness :
    (LaneRx.close rxOpen busOpen).reg 1 = busOpen.reg 1 :=
  (lane_rx_close_idempotent Nat Nat busOpen rxOpen).2 1 (by decide)

/-- C6: `LaneRx::is_closed` is exactly `!tx_slot.is_valid()`, i.e. registry
membership of the receiver's tag through its handle: it holds exactly when
the tag is not currently a key of the registry, and is unaffected by the
channel arena (in particular by the raw channel's closed flag). -/
theorem lane_rx_is_closed_is_membership :
    ∀ (T V : Type) (s : BusState T V) (rx : LaneRx T),
      rx.is_closed s = !(rx.tx_slot.is_valid s.reg) ∧
      (rx.is_closed s = true ↔ s.reg rx.tx_slot.key = none) ∧
      (∀ (f : Nat → Option (Chan T V)) (n lb : Nat),
        rx.is_closed ⟨f, n, s.reg, lb⟩ = rx.is_closed s) := by
  intro T V s rx
  refine ⟨rfl, ?_, fun f n lb => rfl⟩
  unfold LaneRx.is_closed MapSlot.is_valid
  cases s.reg rx.tx_slot.key <;> simp

/-- Witness for C6: the evicted receiver reports closed although its raw
channel still buffers a value. -/
theorem lane_rx_is_closed_is_membership_witness :
    rxGone.is_closed busBuffered = true :=
  (lane_rx_is_closed_is_membership Nat Nat busBuffered rxGone).2.1.mpr rfl

/-- C7: when a `push` creates the registry entry for its tag (first use:
vacant registry, and a positive lane buffer — `mpsc::channel` rejects 0),
the enqueue of the triggering value into the fresh lane succeeds (a fresh
channel cannot be full), so the `unwrap` on that first send never panics
and the new receiver is returned to the caller. -/
theorem bus_first_send_cannot_panic :
    ∀ (T V : Type) [DecidableEq T] (s : BusState T V) (tag : T) (value : V),
      s.reg tag = none → 0 < s.lane_buf →
      (Bus.push_item s tag value).2 = .created ⟨s.next_chan, ⟨tag⟩⟩ ∧
      (Bus.push_item s tag value).2 ≠ .panicked ∧
      ((Bus.push_item s tag value).1.chans s.next_chan).map Chan.buf =
        some [(tag, value)] := by
  intro T V _ s tag value habs hbuf
  rw [push_item_absent s tag value habs (Nat.pos_iff_ne_zero.mp hbuf)]
  exact ⟨rfl, by simp, by simp⟩

/-- Witness for C7: the first push of `9` to tag `0` on an empty bus creates
lane channel `0` and returns the new receiver. -/
theorem bus_first_send_cannot_panic_witness :
    (Bus.push_item busEmpty 0 9).2 = .created ⟨0, ⟨0⟩⟩ :=
  (bus_first_send_cannot_panic Nat Nat busEmpty 0 9 rfl (by decide)).1

/-- C8: `Mux::new` builds the shared aggregator channel once and hands its
receiving half back exactly once, at construction (over an empty registry);
whenever `Mux::send` creates a new lane, the returned lane's sender is a
clone of the aggregator's sending half tagged with the lane's tag; and a
send through a lane's sender appends `(tag, v)` to its own (aggregator)
channel only, never to any other channel — so lane replies reach the single
aggregator receiver, tagged, and never the per-tag channel. -/
theorem mux_lane_sender_is_aggregator :
    (∀ (T V : Type) (buf lane_buf : Nat), buf ≠ 0 →
      ∃ m : MuxState T V, Mux.new buf lane_buf = some (m, m.tx_chan) ∧
        m.bus.chans m.tx_chan = some ⟨buf, [], false, true⟩ ∧
        (∀ t, m.bus.reg t = none) ∧ m.bus.lane_buf = lane_buf) ∧
    (∀ (T V : Type) [DecidableEq T] (m m' : MuxState T V) (tag : T)
        (value : V) (l : Lane T),
      Mux.send m tag value = (m', .new_lane l) →
        l.tx.chan = m.tx_chan ∧ l.tx.tag = tag ∧ l.rx.tx_slot.key = tag) ∧
    (∀ (T V : Type) [DecidableEq T] (s : BusState T V) (tx : LaneTx T)
        (v : V),
      (∀ j, j ≠ tx.chan → ((tx.send s v).1).chans j = s.chans j) ∧
      (∀ c, s.chans tx.chan = some c → c.closed = false →
        c.buf.length < c.cap →
        tx.send s v =
          (s.set_chan tx.chan { c with buf := c.buf ++ [(tx.tag, v)] },
            .ok))) := by
  refine ⟨?_, ?_, ?_⟩
  · intro T V buf lane_buf hbuf
    refine ⟨⟨⟨fun i => if i = 0 then some ⟨buf, [], false, true⟩ else none,
        1, fun _ => none, lane_buf⟩, 0⟩, ?_, by simp, fun t => rfl, rfl⟩
    unfold Mux.new
    rw [if_neg hbuf]
  · intro T V _ m m' tag value l h
    unfold Mux.send at h
    split at h
    · next b rx heq =>
      split at h
      · next l0 heq2 =>
        rw [Prod.mk.injEq] at h
        obtain ⟨-, hl⟩ := h
        injection hl with hl
        subst hl
        simp [Lane.from_parts] at heq2
        subst heq2
        exact ⟨rfl, (push_created_eq heq).1, (push_created_eq heq).1⟩
      · next heq2 =>
        simp [Lane.from_parts] at heq2
    · simp at h
    · simp at h
    · simp at h
    · simp at h
  · intro T V _ s tx v
    constructor
    · intro j hj
      unfold LaneTx.send
      split
      · rfl
      · split
        · simp [BusState.set_chan, hj]
        · rfl
        · rfl
    · intro c hc hcl hroom
      unfold LaneTx.send
      rw [hc]
      simp [Chan.send_now, hcl, hroom]

/-- Witness for C8: a send through the open lane's sender appends exactly
its tagged value to its own channel. -/
theorem mux_lane_sender_is_aggregator_witness :
    txOpen.send busOpen 5 =
      (busOpen.set_chan 0 ⟨2, [(0, 5)], false, true⟩, LaneSendRes.ok) :=
  (mux_lane_sender_is_aggregator.2.2 Nat Nat busOpen txOpen 5).2
    ⟨2, [], false, true⟩ rfl rfl (by decide)

/-- C9: per-tag FIFO: along any interleaving of completed `LaneTx::send`
and `LaneRx::recv` operations on one live lane (starting from an empty lane
buffer), the sequence of values obtained by the receiver is a prefix, in
send order, of the sequence of values whose send completed: same-tag
messages are delivered in the order they were sent. -/
theorem per_tag_fifo :
    ∀ (T V : Type) [DecidableEq T] (tx : LaneTx T) (rx : LaneRx T)
        (s : BusState T V) (ops : List (LaneOp V)) (c : Chan T V),
      rx.chan = tx.chan → (s.reg rx.tx_slot.key).isSome = true →
      s.chans tx.chan = some c → c.closed = false → c.tx_alive = true →
      c.buf = [] →
      ∃ rest, (runLaneOps tx rx s ops).2.2 ++ rest =
        (runLaneOps tx rx s ops).2.1 := by
  intro T V _ tx rx s ops c hch hreg hc hcl hal hempty
  obtain ⟨c', -, hbal⟩ :=
    run_lane_ops_fifo_aux tx rx ops s c hch hreg hc hcl hal
  rw [hempty] at hbal
  exact ⟨c'.buf.map Prod.snd, by simpa using hbal.symm⟩

/-- Witness for C9: two sends and a receive on the open lane leave the
received log a prefix of the sent log. -/
theorem per_tag_fifo_witness :
    ∃ rest, (runLaneOps txOpen rxOpen busOpen
        [LaneOp.send 1, LaneOp.send 2, LaneOp.recv]).2.2 ++ rest =
      (runLaneOps txOpen rxOpen busOpen
        [LaneOp.send 1, LaneOp.send 2, LaneOp.recv]).2.1 :=
  per_tag_fifo Nat Nat txOpen rxOpen busOpen
    [LaneOp.send 1, LaneOp.send 2, LaneOp.recv] ⟨2, [], false, true⟩
    rfl rfl rfl rfl rfl rfl

/-- C10: once a lane receiver's tag is absent from the registry (its
`is_closed()` holds — after a close, an eviction, or a registry removal),
`recv` returns `None` immediately and `poll_recv` returns `Ready(None)`,
both leaving the state — in particular the lane channel's buffer —
untouched: values still buffered at that moment are never delivered. -/
theorem closed_lane_recv_discards_buffer :
    ∀ (T V : Type) [DecidableEq T] (s : BusState T V) (rx : LaneRx T),
      rx.is_closed s = true →
      rx.recv s = (s, .finished) ∧ rx.poll_recv s = (s, some none) := by
  intro T V _ s rx h
  constructor
  · unfold LaneRx.recv
    rw [if_pos h]
  · unfold LaneRx.poll_recv
    rw [if_pos h]

/-- Witness for C10: the evicted receiver's `recv` ends the stream although
its channel still buffers `(0, 7)`, which is therefore never delivered. -/
theorem closed_lane_recv_discards_buffer_witness :
    rxGone.recv busBuffered = (busBuffered, .finished) ∧
    (busBuffered.chans 0).map Chan.buf = some [(0, 7)] :=
  ⟨(closed_lane_recv_discards_buffer Nat Nat busBuffered rxGone rfl).1,
    by decide⟩
